import Mathlib

/-!
Verification of the session-negotiation and streaming-response client in
`agent_zero_cli.py` / `agent_zero_cli_fastmcp.py`.

The Python code is shallowly embedded: strings are `List Char`, byte
streams are `List Nat`, HTTP responses and poll answers are explicit data,
and `time.time()` is an explicit `Nat` clock threaded through the timed
reader.  Every definition mirrors one place in the source; doc comments
name the Python function and lines it embeds.
-/

namespace AgentZeroCli

/-- Convert a Lean string literal to the `List Char` representation used
throughout this development for Python strings. -/
def lc (s : String) : List Char := s.toList

/-- Python `str.strip()` whitespace test (the ASCII whitespace characters
relevant to this client; SSE lines can only carry `\r` at the edges). -/
def pyWs (c : Char) : Bool :=
  c = ' ' || c = '\t' || c = '\n' || c = '\r' || c = '\x0b' || c = '\x0c'

/-- Python `str.strip()` on a `List Char`. -/
def pyStrip (s : List Char) : List Char :=
  ((s.dropWhile pyWs).reverse.dropWhile pyWs).reverse

/-- Python `str.startswith(pat)`. -/
def startsWithS : List Char → List Char → Bool
  | [], _ => true
  | _ :: _, [] => false
  | p :: ps, c :: cs => p = c && startsWithS ps cs

/-- Python `pat in s` (substring containment). -/
def containsSub (pat : List Char) : List Char → Bool
  | [] => startsWithS pat []
  | c :: cs => startsWithS pat (c :: cs) || containsSub pat cs

/-- Split at the first occurrence of `pat`: returns the part before the
occurrence and the part after it, or `none` when `pat` does not occur.
Models the search step of Python `str.split(pat)`. -/
def breakOnSub (pat : List Char) : List Char → Option (List Char × List Char)
  | [] => if startsWithS pat [] then some ([], []) else none
  | c :: cs =>
    if startsWithS pat (c :: cs) then some ([], (c :: cs).drop pat.length)
    else (breakOnSub pat cs).map (fun p => (c :: p.1, p.2))

/-- Python `s.split(pat)[1]`: the text between the first occurrence of
`pat` and the next occurrence (or the end).  `none` when `pat` is absent
(the code only calls this under a containment guard). -/
def pySplitIdx1 (pat s : List Char) : Option (List Char) :=
  match breakOnSub pat s with
  | none => none
  | some p =>
    match breakOnSub pat p.2 with
    | none => some p.2
    | some q => some q.1

/-- The buffer line-framing loop shared by `_listen_for_response`
(agent_zero_cli.py lines 144-146) and `_process_response_stream`
(lines 288-290):

  `while '\n' in buffer: line, buffer = buffer.split('\n', 1)`

Given the current buffer contents it returns the complete
(newline-terminated) lines in order together with the residual buffer
(the text after the last newline).  Generic in the element type so the
same definition serves the decoded-character model and the
codepoint/byte model. -/
def extractL {α : Type} [DecidableEq α] (nl : α) : List α → List (List α) × List α
  | [] => ([], [])
  | c :: cs =>
    if c = nl then
      let p := extractL nl cs
      ([] :: p.1, p.2)
    else
      match extractL nl cs with
      | ([], b) => ([], c :: b)
      | (l :: ls, b) => ((c :: l) :: ls, b)

/-- The chunk loop around the line framing: each arriving chunk is
appended to the buffer and the complete lines are flushed
(agent_zero_cli.py lines 138-146 and 276-290, with the chunk-decoding
step factored out).  Returns all flushed lines in order and the final
residual buffer. -/
def feedChunks {α : Type} [DecidableEq α] (nl : α) :
    List α → List (List α) → List (List α) × List α
  | buf, [] => ([], buf)
  | buf, ch :: chs =>
    let p := extractL nl (buf ++ ch)
    let q := feedChunks nl p.2 chs
    (p.1 ++ q.1, q.2)

theorem extractL_append {α : Type} [DecidableEq α] (nl : α) (x y : List α) :
    extractL nl (x ++ y) =
      ((extractL nl x).1 ++ (extractL nl ((extractL nl x).2 ++ y)).1,
        (extractL nl ((extractL nl x).2 ++ y)).2) := by
  induction x with
  | nil => simp [extractL]
  | cons c cs ih =>
    by_cases hc : c = nl
    · subst hc
      simp [extractL, ih]
    · cases hcs : extractL nl cs with
      | mk ls b =>
        cases hby : extractL nl (b ++ y) with
        | mk ls2 b2 =>
          have ih' : extractL nl (cs ++ y) = (ls ++ ls2, b2) := by
            rw [ih, hcs]; simp [hby]
          cases ls with
          | nil =>
            cases ls2 with
            | nil => simp [extractL, hc, ih', hcs, hby]
            | cons l2 ls2' => simp [extractL, hc, ih', hcs, hby]
          | cons l ls' => simp [extractL, hc, ih', hcs, hby]

theorem extractL_residual_no_nl {α : Type} [DecidableEq α] (nl : α) (s : List α) :
    nl ∉ (extractL nl s).2 := by
  induction s with
  | nil => simp [extractL]
  | cons c cs ih =>
    by_cases hc : c = nl
    · subst hc; simpa [extractL] using ih
    · cases hcs : extractL nl cs with
      | mk ls b =>
        rw [hcs] at ih
        cases ls with
        | nil =>
          simp only [extractL, hc, if_false, hcs]
          simp at ih ⊢
          exact ⟨fun h => hc h.symm, ih⟩
        | cons l ls' =>
          simp only [extractL, hc, if_false, hcs]
          simpa using ih

theorem extractL_no_nl {α : Type} [DecidableEq α] (nl : α) (s : List α)
    (h : nl ∉ s) : extractL nl s = ([], s) := by
  induction s with
  | nil => simp [extractL]
  | cons c cs ih =>
    have hc : ¬ c = nl := fun hcn => h (hcn ▸ List.mem_cons_self c cs)
    have hcs : nl ∉ cs := fun hm => h (List.mem_cons_of_mem _ hm)
    simp [extractL, hc, ih hcs]

theorem extractL_reconstruct {α : Type} [DecidableEq α] (nl : α) (s : List α) :
    ((extractL nl s).1.map (fun l => l ++ [nl])).flatten ++ (extractL nl s).2 = s := by
  induction s with
  | nil => simp [extractL]
  | cons c cs ih =>
    by_cases hc : c = nl
    · subst hc; simpa [extractL] using ih
    · cases hcs : extractL nl cs with
      | mk ls b =>
        rw [hcs] at ih
        cases ls with
        | nil =>
          simp only [extractL, hc, if_false, hcs]
          simp at ih ⊢
          exact ih
        | cons l ls' =>
          simp only [extractL, hc, if_false, hcs]
          simp at ih ⊢
          simpa using ih

theorem feedChunks_eq_extractL {α : Type} [DecidableEq α] (nl : α)
    (cs : List (List α)) (buf : List α) :
    extractL nl (buf ++ cs.flatten) =
      ((extractL nl buf).1 ++ (feedChunks nl (extractL nl buf).2 cs).1,
        (feedChunks nl (extractL nl buf).2 cs).2) := by
  induction cs generalizing buf with
  | nil => simp [feedChunks]
  | cons ch chs ih =>
    have h1 : extractL nl (buf ++ (ch :: chs).flatten) =
        extractL nl ((buf ++ ch) ++ chs.flatten) := by
      simp [List.flatten]
    rw [h1, ih (buf ++ ch)]
    have hres : extractL nl (extractL nl (buf ++ ch)).2 =
        ([], (extractL nl (buf ++ ch)).2) :=
      extractL_no_nl nl _ (extractL_residual_no_nl nl _)
    have h2 := ih (extractL nl (buf ++ ch)).2
    rw [hres] at h2
    simp only [List.nil_append] at h2
    have h3 := extractL_append nl buf ch
    simp [feedChunks, h3]

theorem feedChunks_join {α : Type} [DecidableEq α] (nl : α) (cs : List (List α)) :
    feedChunks nl [] cs = extractL nl cs.flatten := by
  have h := feedChunks_eq_extractL nl cs []
  simp [extractL] at h
  exact h.symm

/-- Validity of a UTF-8 continuation byte. -/
def utf8Cont (b : Nat) : Bool := 0x80 ≤ b && b ≤ 0xBF

/-- Validity of the second byte of a multi-byte UTF-8 sequence, which
depends on the lead byte (excluding overlong encodings, surrogates and
codepoints above U+10FFFF, as Python's strict `bytes.decode('utf-8')`
does). -/
def utf8SecondOk (b b2 : Nat) : Bool :=
  if b = 0xE0 then 0xA0 ≤ b2 && b2 ≤ 0xBF
  else if b = 0xED then 0x80 ≤ b2 && b2 ≤ 0x9F
  else if b = 0xF0 then 0x90 ≤ b2 && b2 ≤ 0xBF
  else if b = 0xF4 then 0x80 ≤ b2 && b2 ≤ 0x8F
  else utf8Cont b2

/-- Python `chunk.decode('utf-8')` (strict): decodes a byte list to a
codepoint list, or fails (`UnicodeDecodeError`) on any invalid or
truncated sequence.  Used by `_process_response_stream`
(agent_zero_cli.py line 281), which decodes EVERY CHUNK SEPARATELY. -/
def utf8Decode : List Nat → Option (List Nat)
  | [] => some []
  | b :: bs =>
    if b ≤ 0x7F then (utf8Decode bs).map (b :: ·)
    else if 0xC2 ≤ b && b ≤ 0xDF then
      match bs with
      | b2 :: rest =>
        if utf8Cont b2 then
          (utf8Decode rest).map (((b - 0xC0) * 64 + (b2 - 0x80)) :: ·)
        else none
      | [] => none
    else if 0xE0 ≤ b && b ≤ 0xEF then
      match bs with
      | b2 :: b3 :: rest =>
        if utf8SecondOk b b2 && utf8Cont b3 then
          (utf8Decode rest).map
            (((b - 0xE0) * 4096 + (b2 - 0x80) * 64 + (b3 - 0x80)) :: ·)
        else none
      | _ => none
    else if 0xF0 ≤ b && b ≤ 0xF4 then
      match bs with
      | b2 :: b3 :: b4 :: rest =>
        if utf8SecondOk b b2 && utf8Cont b3 && utf8Cont b4 then
          (utf8Decode rest).map
            (((b - 0xF0) * 262144 + (b2 - 0x80) * 4096 +
              (b3 - 0x80) * 64 + (b4 - 0x80)) :: ·)
        else none
      | _ => none
    else none

/-- The JSON values `json.loads` can return (numbers are kept as their
source lexeme; no claim inspects numeric values). -/
inductive Json where
  | null
  | bool (b : Bool)
  | num (raw : List Char)
  | str (s : List Char)
  | arr (xs : List Json)
  | obj (kvs : List (List Char × Json))

/-- JSON insignificant whitespace. -/
def jsonWs (c : Char) : Bool := c = ' ' || c = '\t' || c = '\n' || c = '\r'

/-- Skip insignificant whitespace. -/
def skipWs (s : List Char) : List Char := s.dropWhile jsonWs

/-- Hexadecimal digit value. -/
def hexVal? (c : Char) : Option Nat :=
  if '0' ≤ c ∧ c ≤ '9' then some (c.toNat - '0'.toNat)
  else if 'a' ≤ c ∧ c ≤ 'f' then some (c.toNat - 'a'.toNat + 10)
  else if 'A' ≤ c ∧ c ≤ 'F' then some (c.toNat - 'A'.toNat + 10)
  else none

/-- Parse the body of a JSON string after the opening quote; returns the
decoded characters and the rest of the input after the closing quote. -/
def parseStrBody : List Char → Option (List Char × List Char)
  | [] => none
  | c :: cs =>
    if c = '"' then some ([], cs)
    else if c = '\\' then
      match cs with
      | [] => none
      | e :: cs2 =>
        if e = '"' || e = '\\' || e = '/' then
          (parseStrBody cs2).map (fun p => (e :: p.1, p.2))
        else if e = 'b' then (parseStrBody cs2).map (fun p => ('\x08' :: p.1, p.2))
        else if e = 'f' then (parseStrBody cs2).map (fun p => ('\x0c' :: p.1, p.2))
        else if e = 'n' then (parseStrBody cs2).map (fun p => ('\n' :: p.1, p.2))
        else if e = 'r' then (parseStrBody cs2).map (fun p => ('\r' :: p.1, p.2))
        else if e = 't' then (parseStrBody cs2).map (fun p => ('\t' :: p.1, p.2))
        else if e = 'u' then
          match cs2 with
          | h1 :: h2 :: h3 :: h4 :: rest =>
            match hexVal? h1, hexVal? h2, hexVal? h3, hexVal? h4 with
            | some v1, some v2, some v3, some v4 =>
              (parseStrBody rest).map
                (fun p => (Char.ofNat (v1 * 4096 + v2 * 256 + v3 * 16 + v4) :: p.1, p.2))
            | _, _, _, _ => none
          | _ => none
        else none
    else if c.toNat < 0x20 then none
    else (parseStrBody cs).map (fun p => (c :: p.1, p.2))

/-- The integer part of a JSON number: `0` or a nonzero digit followed by
digits. -/
def parseIntPart : List Char → Option (List Char × List Char)
  | [] => none
  | c :: r =>
    if c = '0' then some (['0'], r)
    else if c.isDigit then some (c :: r.takeWhile Char.isDigit, r.dropWhile Char.isDigit)
    else none

/-- The optional fraction part of a JSON number. -/
def parseFrac : List Char → Option (List Char × List Char)
  | '.' :: r =>
    let ds := r.takeWhile Char.isDigit
    if ds = [] then none else some ('.' :: ds, r.dropWhile Char.isDigit)
  | s => some ([], s)

/-- The optional exponent part of a JSON number. -/
def parseExp : List Char → Option (List Char × List Char)
  | [] => some ([], [])
  | c :: r =>
    if c = 'e' || c = 'E' then
      let p : List Char × List Char :=
        match r with
        | '+' :: rr => (['+'], rr)
        | '-' :: rr => (['-'], rr)
        | _ => ([], r)
      let ds := p.2.takeWhile Char.isDigit
      if ds = [] then none
      else some (c :: (p.1 ++ ds), p.2.dropWhile Char.isDigit)
    else some ([], c :: r)

/-- A JSON number lexeme (sign, integer part, fraction, exponent). -/
def parseNum (s : List Char) : Option (List Char × List Char) :=
  let p : List Char × List Char :=
    match s with
    | '-' :: r => (['-'], r)
    | _ => ([], s)
  match parseIntPart p.2 with
  | none => none
  | some (ip, r1) =>
    match parseFrac r1 with
    | none => none
    | some (fp, r2) =>
      match parseExp r2 with
      | none => none
      | some (ep, r3) => some (p.1 ++ ip ++ fp ++ ep, r3)

mutual

/-- Recursive-descent JSON value parser (the grammar accepted by
`json.loads`); `fuel` bounds the recursion depth and is chosen large
enough in `json_loads` for any input it is applied to. -/
def parseVal : Nat → List Char → Option (Json × List Char)
  | 0, _ => none
  | fuel + 1, s =>
    match skipWs s with
    | [] => none
    | c :: cs =>
      if c = '"' then (parseStrBody cs).map (fun p => (Json.str p.1, p.2))
      else if c = '{' then
        match skipWs cs with
        | '}' :: r => some (Json.obj [], r)
        | s2 => parseMembers fuel s2 []
      else if c = '[' then
        match skipWs cs with
        | ']' :: r => some (Json.arr [], r)
        | s2 => parseElems fuel s2 []
      else if c = 't' then
        if startsWithS (lc "rue") cs then some (Json.bool true, cs.drop 3) else none
      else if c = 'f' then
        if startsWithS (lc "alse") cs then some (Json.bool false, cs.drop 4) else none
      else if c = 'n' then
        if startsWithS (lc "ull") cs then some (Json.null, cs.drop 3) else none
      else (parseNum (c :: cs)).map (fun p => (Json.num p.1, p.2))

/-- Object members after the opening brace (nonempty object). -/
def parseMembers : Nat → List Char → List (List Char × Json) →
    Option (Json × List Char)
  | 0, _, _ => none
  | fuel + 1, s, acc =>
    match skipWs s with
    | '"' :: r =>
      match parseStrBody r with
      | none => none
      | some (key, r2) =>
        match skipWs r2 with
        | ':' :: r3 =>
          match parseVal fuel r3 with
          | none => none
          | some (v, r4) =>
            match skipWs r4 with
            | ',' :: r5 => parseMembers fuel r5 (acc ++ [(key, v)])
            | '}' :: r5 => some (Json.obj (acc ++ [(key, v)]), r5)
            | _ => none
        | _ => none
    | _ => none

/-- Array elements after the opening bracket (nonempty array). -/
def parseElems : Nat → List Char → List Json → Option (Json × List Char)
  | 0, _, _ => none
  | fuel + 1, s, acc =>
    match parseVal fuel s with
    | none => none
    | some (v, r) =>
      match skipWs r with
      | ',' :: r2 => parseElems fuel r2 (acc ++ [v])
      | ']' :: r2 => some (Json.arr (acc ++ [v]), r2)
      | _ => none

end

/-- Python `json.loads`: parse a complete JSON document; trailing
non-whitespace is an error. -/
def json_loads (s : List Char) : Option Json :=
  match parseVal (2 * s.length + 4) s with
  | some (j, rest) => if skipWs rest = [] then some j else none
  | none => none

/-- Python dict lookup for an object decoded by `json.loads`: when a key
occurs more than once the later occurrence wins (as in the dict
`json.loads` builds). -/
def dictGet? (kvs : List (List Char × Json)) (key : List Char) : Option Json :=
  match kvs with
  | [] => none
  | kv :: rest =>
    match dictGet? rest key with
    | some r => some r
    | none => if kv.1 = key then some kv.2 else none

/-- Python `value == s` for a decoded JSON value against a string
constant. -/
def jsonIsStrVal (v : Json) (s : List Char) : Bool :=
  match v with
  | Json.str t => t = s
  | _ => false

/-- `AgentZeroMCPClient._is_final_response` (agent_zero_cli.py lines
381-391): a decoded frame is final when it is a dict with a `status` of
`success`/`error`/`complete`, or has both `response` and `chat_id` keys,
or has an `error` key. -/
def is_final_response : Json → Bool
  | Json.obj kvs =>
    (match dictGet? kvs (lc "status") with
     | some v =>
       jsonIsStrVal v (lc "success") || jsonIsStrVal v (lc "error") ||
         jsonIsStrVal v (lc "complete")
     | none => false)
    || ((dictGet? kvs (lc "response")).isSome && (dictGet? kvs (lc "chat_id")).isSome)
    || (dictGet? kvs (lc "error")).isSome
  | _ => false

/-- The `data: ` line marker (with the trailing space, as the code tests). -/
def dataPfxS : List Char := lc "data: "

/-- The `event: ` line marker. -/
def eventPfxS : List Char := lc "event: "

/-- The `[DONE]` sentinel filtered at lines 153 and 297. -/
def doneSentinel : List Char := lc "[DONE]"

/-- The endpoint-rotation shape test prefix (line 155). -/
def mcpPfxS : List Char := lc "/mcp/t-"

/-- The rotation shape substring (line 155). -/
def sidSub : List Char := lc "session_id="

/-- The negotiation substring (line 51). -/
def qSidSub : List Char := lc "?session_id="

/-- Step 1 of `AgentZeroMCPClient.send_message` (agent_zero_cli.py lines
43-54): scan the negotiation SSE line stream for the first nonempty
`data: `-prefixed line whose (stripped) path fragment contains
`?session_id=`; extract the session id (`endpoint_path.split('?session_id=')[1]`).
Lines whose fragment lacks `?session_id=` are skipped, not used. -/
def negotiate_session_id : List (List Char) → Option (List Char)
  | [] => none
  | line :: rest =>
    if line = [] then negotiate_session_id rest
    else if startsWithS dataPfxS line then
      let ep := pyStrip (line.drop 6)
      if containsSub qSidSub ep then
        match pySplitIdx1 qSidSub ep with
        | some sid => some sid
        | none => none
      else negotiate_session_id rest
    else negotiate_session_id rest

/-- `self.messages_url` (line 26): the fixed messages URL derived from the
base URL and token, independent of the negotiated fragment. -/
def messages_url (baseUrl token : List Char) : List Char :=
  baseUrl ++ lc "/mcp/t-" ++ token ++ lc "/messages/"

/-- The endpoint `send_message` actually dispatches to (line 62):
`f"{self.messages_url}?session_id={session_id}"`, or `none` when no
session id was obtained (the `ConnectionError` at line 59). -/
def negotiate (baseUrl token : List Char) (sseLines : List (List Char)) :
    Option (List Char) :=
  (negotiate_session_id sseLines).map
    (fun sid => messages_url baseUrl token ++ lc "?session_id=" ++ sid)

/-- Modelled from the spec: "The first line beginning with the `data:`
prefix is taken as an opaque path fragment; the result is that fragment
resolved against `baseURL`" — RFC-style resolution of a path fragment
against a base URL with no trailing slash. -/
def specResolveFragment (baseUrl fragment : List Char) : List Char :=
  if startsWithS (lc "/") fragment then baseUrl ++ fragment
  else baseUrl ++ lc "/" ++ fragment

/-- Modelled from the spec: `negotiate(baseURL, token) → endpointURL`:
take the first `data:` line's fragment opaquely and resolve it against
the base URL. -/
def specNegotiate (baseUrl : List Char) : List (List Char) → Option (List Char)
  | [] => none
  | line :: rest =>
    if startsWithS dataPfxS line then
      some (specResolveFragment baseUrl (pyStrip (line.drop 6)))
    else specNegotiate baseUrl rest

/-- One answer of the environment to a poll `GET` (lines 167-185): an
HTTP status with its body, or a raised request exception. -/
inductive PollResp where
  | ok (status : Nat) (body : List Char)
  | exn (msg : List Char)

/-- What a successful poll returns: the decoded JSON body, or the raw
text when the body fails to decode (lines 170-178). -/
inductive PollRet where
  | jsonRet (j : Json)
  | textRet (t : List Char)

/-- Result of the poll loop. -/
inductive PollOutcome where
  | success (r : PollRet)
  | timeout

/-- Whether a poll answer is an HTTP 200. -/
def isOk200 : PollResp → Bool
  | .ok status _ => status = 200
  | .exn _ => false

/-- The fallback poll loop of `_listen_for_response` (lines 161-190):
up to `max_polls` GETs against the announced endpoint; 200 returns
immediately (JSON if the body decodes, raw text otherwise); 202 and any
other status (and any raised exception) are only logged, then retried;
exhausting the attempts is a poll timeout.  The oracle is the list of
successive answers the server gives; unanswered GETs (oracle exhausted)
behave as raised exceptions.  Returns the outcome and the unconsumed
oracle. -/
def poll_response_endpoint : Nat → List PollResp → PollOutcome × List PollResp
  | 0, oracle => (.timeout, oracle)
  | n + 1, [] => poll_response_endpoint n []
  | n + 1, r :: rest =>
    match r with
    | .ok status body =>
      if status = 200 then
        match json_loads body with
        | some j => (.success (.jsonRet j), rest)
        | none => (.success (.textRet body), rest)
      else poll_response_endpoint n rest
    | .exn _ => poll_response_endpoint n rest

/-- `max_polls` (line 161). -/
def max_polls : Nat := 30

/-- The response-bearing console outputs of the listener: a decoded JSON
frame (line 195-197), a plain-text fragment (line 205), or the poll
timeout notice (line 190).  Debug prints are not modelled. -/
inductive OutputItem where
  | jsonResp (j : Json)
  | textResp (t : List Char)
  | pollTimeoutNote

/-- State threaded through the listener: the remaining poll oracle and
the outputs produced so far. -/
structure ListenState where
  oracle : List PollResp
  log : List OutputItem

/-- How `_listen_for_response` can return: at a final-looking JSON frame
(line 202), from a successful fallback poll (lines 175/178), at a
terminal named event (line 213), or by exhausting the stream. -/
inductive ListenResult where
  | finalResponse (j : Json)
  | pollSuccess (r : PollRet)
  | streamEnded
  | exhausted

/-- The output a successful poll prints before returning. -/
def pollRetLog : PollRet → OutputItem
  | .jsonRet j => .jsonResp j
  | .textRet t => .textResp t

/-- Result of processing one line: continue with an updated state, or
return from the listener. -/
inductive StepRes where
  | next (st : ListenState)
  | stop (r : ListenResult) (st : ListenState)

/-- Processing of one framed line by `_listen_for_response` (lines
146-213): strip; skip blanks; `data: ` lines are stripped payloads,
filtered against empty/`[DONE]`, checked for the endpoint-rotation shape
(which hands off to the fallback poll loop), otherwise JSON-decoded
(final frames return, others are printed) with undecodable payloads
printed as text; `event: ` lines with type `end`/`done`/`complete`
terminate the stream; anything else is ignored. -/
def listen_step (st : ListenState) (rawLine : List Char) : StepRes :=
  let line := pyStrip rawLine
  if line = [] then .next st
  else if startsWithS dataPfxS line then
    let data := pyStrip (line.drop 6)
    if data = [] || data = doneSentinel then .next st
    else if startsWithS mcpPfxS data && containsSub sidSub data then
      match poll_response_endpoint max_polls st.oracle with
      | (.success r, rest) =>
        .stop (.pollSuccess r) { oracle := rest, log := st.log ++ [pollRetLog r] }
      | (.timeout, rest) =>
        .next { oracle := rest, log := st.log ++ [.pollTimeoutNote] }
    else
      match json_loads data with
      | some j =>
        if is_final_response j then
          .stop (.finalResponse j) { st with log := st.log ++ [.jsonResp j] }
        else .next { st with log := st.log ++ [.jsonResp j] }
      | none => .next { st with log := st.log ++ [.textResp data] }
  else if startsWithS eventPfxS line then
    let et := pyStrip (line.drop 7)
    if et = lc "end" || et = lc "done" || et = lc "complete" then
      .stop .streamEnded st
    else .next st
  else .next st

/-- The listener's loop over the framed lines, with its early returns. -/
def listen_run (st : ListenState) : List (List Char) → StepRes
  | [] => .next st
  | l :: ls =>
    match listen_step st l with
    | .next st' => listen_run st' ls
    | .stop r st' => .stop r st'

/-- `_listen_for_response` over the framed lines of the stream: the loop
with its early returns; a stream that ends without a terminal condition
returns with no response (line 220). -/
def listen_for_response (st : ListenState) (ls : List (List Char)) :
    ListenResult × ListenState :=
  match listen_run st ls with
  | .next st' => (.exhausted, st')
  | .stop r st' => (r, st')

/-- The outcome of one `send_message` turn, as observable by the caller. -/
inductive SendOutcome where
  | negotiationError
  | listened (r : ListenResult) (st : ListenState)
  | noStream (body : List Char)
  | dispatchError (status : Nat) (body : List Char)

/-- `AgentZeroMCPClient.send_message` (lines 29-116) after the transport
is abstracted: negotiation over the SSE lines; then the dispatch POST
answered with `postStatus`/`postBody`; on 202 the response stream (given
by its framed lines and the poll oracle) is consumed by
`_listen_for_response`; on any 4xx/5xx `raise_for_status` raises
(`DispatchError`, turn fails, no stream is opened); on any other status
`raise_for_status` is a no-op and the function falls through, returning
without opening a stream and without decoding the body (it is only
printed as debug text, line 105). -/
def send_message (sseLines : List (List Char)) (postStatus : Nat)
    (postBody : List Char) (streamLines : List (List Char))
    (oracle : List PollResp) : SendOutcome :=
  match negotiate_session_id sseLines with
  | none => .negotiationError
  | some _sid =>
    if postStatus = 202 then
      let p := listen_for_response { oracle := oracle, log := [] } streamLines
      .listened p.1 p.2
    else if 400 ≤ postStatus ∧ postStatus < 600 then
      .dispatchError postStatus postBody
    else .noStream postBody

/-- A chunk of the response stream with its arrival instant (the explicit
clock standing for `time.time()`). -/
structure TChunk where
  t : Nat
  data : List Char

/-- Whether the connection is eventually closed by the server (at a given
instant) or stays open silently forever. -/
inductive StreamTail where
  | closed (t : Nat)
  | silent

/-- How the timed reader ends. -/
inductive TimedResult where
  | result (r : ListenResult) (st : ListenState)
  | idleBreak (st : ListenState)
  | readTimeout (st : ListenState)
  | streamClosed (st : ListenState)

/-- The timed chunk loop of `_listen_for_response` (lines 131-220).
`requests`' read timeout of 300 (line 131) raises `Timeout` (caught at
line 222, a soft return) whenever no bytes arrive for 300 time units;
the iterator otherwise blocks until the next chunk arrives.  A truthy
chunk resets `last_activity` and is framed and processed; the inactivity
check of lines 216-218 runs after the chunk is handled, so after a
truthy chunk it compares the clock against the instant just stored
(`c.t - c.t > 120`, kept verbatim), and only a falsy (empty) chunk can
reach it with an old `last_activity`. -/
def timed_listen (st : ListenState) (lastArrival lastActivity : Nat)
    (buf : List Char) : List TChunk → StreamTail → TimedResult
  | [], .silent => .readTimeout st
  | [], .closed t =>
    if lastArrival + 300 < t then .readTimeout st else .streamClosed st
  | c :: cs, tail =>
    if lastArrival + 300 < c.t then .readTimeout st
    else if c.data = [] then
      if c.t - lastActivity > 120 then .idleBreak st
      else timed_listen st c.t lastActivity buf cs tail
    else
      let p := extractL '\n' (buf ++ c.data)
      match listen_run st p.1 with
      | .stop r st' => .result r st'
      | .next st' =>
        if c.t - c.t > 120 then .idleBreak st'
        else timed_listen st' c.t c.t p.2 cs tail

/-- The chunk-decode-and-frame loop of `_process_response_stream` (lines
276-290): each raw byte chunk is decoded separately with
`chunk.decode('utf-8')`; a chunk that fails to decode is skipped whole
(`continue`, lines 283-285); a decoded chunk is appended to the buffer
and complete lines are flushed.  Returns the framed lines (as codepoint
lists) and the final residual buffer. -/
def process_response_stream (chunks : List (List Nat)) :
    List (List Nat) × List Nat :=
  chunks.foldl
    (fun acc chunk =>
      match utf8Decode chunk with
      | none => acc
      | some s =>
        let p := extractL 10 (acc.2 ++ s)
        (acc.1 ++ p.1, p.2))
    ([], [])

/-- Outcome of the persistent-chat teardown in
`agent_zero_cli_fastmcp.py`. -/
inductive TeardownOutcome where
  | noChat
  | ended
  | warned (msg : List Char)

/-- The session-termination step of `main` in `agent_zero_cli_fastmcp.py`
(lines 104-111): when a chat id is known, `finish_chat` is called inside
`try`/`except`; success prints a confirmation, any raised error is
printed as a warning and swallowed, so nothing propagates to the outer
handler (which would exit with status 1). -/
def finish_chat_teardown (chatId : Option (List Char))
    (call : List Char → Except (List Char) Unit) : TeardownOutcome :=
  match chatId with
  | none => .noChat
  | some cid =>
    match call cid with
    | .ok _ => .ended
    | .error e => .warned e

theorem startsWithS_self_append (p r : List Char) :
    startsWithS p (p ++ r) = true := by
  induction p with
  | nil => rfl
  | cons c cs ih => simp [startsWithS, ih]

theorem listen_run_append (st : ListenState) (xs ys : List (List Char)) :
    listen_run st (xs ++ ys) =
      match listen_run st xs with
      | .next st' => listen_run st' ys
      | .stop r st' => .stop r st' := by
  induction xs generalizing st with
  | nil => simp [listen_run]
  | cons l ls ih =>
    simp only [List.cons_append, listen_run]
    cases listen_step st l with
    | next st' => exact ih st'
    | stop r st' => rfl

/-- Reduction of `listen_step` on a line whose stripped form is a
`data: `-prefixed payload already in stripped form. -/
theorem listen_step_data (st : ListenState) (rawLine data : List Char)
    (h1 : pyStrip rawLine = dataPfxS ++ data) (h2 : pyStrip data = data) :
    listen_step st rawLine =
      (if data = [] || data = doneSentinel then .next st
       else if startsWithS mcpPfxS data && containsSub sidSub data then
         match poll_response_endpoint max_polls st.oracle with
         | (.success r, rest) =>
           .stop (.pollSuccess r) { oracle := rest, log := st.log ++ [pollRetLog r] }
         | (.timeout, rest) =>
           .next { oracle := rest, log := st.log ++ [.pollTimeoutNote] }
       else
         match json_loads data with
         | some j =>
           if is_final_response j then
             .stop (.finalResponse j) { st with log := st.log ++ [.jsonResp j] }
           else .next { st with log := st.log ++ [.jsonResp j] }
         | none => .next { st with log := st.log ++ [.textResp data] }) := by
  have hne : dataPfxS ++ data ≠ [] := by simp [dataPfxS, lc]
  have hsw : startsWithS dataPfxS (dataPfxS ++ data) = true :=
    startsWithS_self_append _ _
  have hdrop : (dataPfxS ++ data).drop 6 = data := rfl
  simp only [listen_step, h1, hsw, hdrop, h2]
  simp [hne]

/-- Reduction of `listen_step` on a line whose stripped form is an
`event: `-prefixed type already in stripped form. -/
theorem listen_step_event (st : ListenState) (rawLine et : List Char)
    (h1 : pyStrip rawLine = eventPfxS ++ et) (h2 : pyStrip et = et) :
    listen_step st rawLine =
      (if et = lc "end" || et = lc "done" || et = lc "complete" then
         .stop .streamEnded st
       else .next st) := by
  have hne : eventPfxS ++ et ≠ [] := by simp [eventPfxS, lc]
  have hnd : startsWithS dataPfxS (eventPfxS ++ et) = false := rfl
  have hsw : startsWithS eventPfxS (eventPfxS ++ et) = true :=
    startsWithS_self_append _ _
  have hdrop : (eventPfxS ++ et).drop 7 = et := rfl
  simp only [listen_step, h1, hnd, hsw, hdrop, h2]
  simp [hne]

theorem containsSub_breakOnSub (pat s : List Char)
    (h : containsSub pat s = true) : (breakOnSub pat s).isSome = true := by
  induction s with
  | nil =>
    simp only [containsSub] at h
    simp [breakOnSub, h]
  | cons c cs ih =>
    simp only [containsSub, Bool.or_eq_true] at h
    by_cases hs : startsWithS pat (c :: cs) = true
    · simp [breakOnSub, hs]
    · have hc : containsSub pat cs = true := by
        rcases h with h | h
        · exact absurd h hs
        · exact h
      have := ih hc
      simp only [breakOnSub, hs, if_false]
      cases hb : breakOnSub pat cs with
      | none => rw [hb] at this; simp at this
      | some p => simp

theorem pySplitIdx1_isSome (pat s : List Char)
    (h : containsSub pat s = true) : (pySplitIdx1 pat s).isSome = true := by
  have hb := containsSub_breakOnSub pat s h
  cases hb1 : breakOnSub pat s with
  | none => rw [hb1] at hb; simp at hb
  | some p =>
    simp only [pySplitIdx1, hb1]
    cases breakOnSub pat p.2 <;> simp

/-- Whether a negotiation SSE line yields a session id in
`send_message` step 1: nonempty, `data: `-prefixed, and its stripped
fragment contains `?session_id=`. -/
def negLineQualifies (l : List Char) : Bool :=
  decide (l ≠ []) && startsWithS dataPfxS l &&
    containsSub qSidSub (pyStrip (l.drop 6))

theorem negotiate_session_id_skip (pre rest : List (List Char))
    (h : ∀ l ∈ pre, negLineQualifies l = false) :
    negotiate_session_id (pre ++ rest) = negotiate_session_id rest := by
  induction pre with
  | nil => rfl
  | cons l ls ih =>
    have hl := h l (List.mem_cons_self l ls)
    have hls : ∀ x ∈ ls, negLineQualifies x = false :=
      fun x hx => h x (List.mem_cons_of_mem _ hx)
    simp only [negLineQualifies, Bool.and_eq_false_iff] at hl
    simp only [List.cons_append, negotiate_session_id]
    by_cases he : l = []
    · simp [he, ih hls]
    · by_cases hd : startsWithS dataPfxS l = true
      · have hq : containsSub qSidSub (pyStrip (l.drop 6)) = false := by
          rcases hl with hl | hl
          · rcases hl with hl | hl
            · simp [he] at hl
            · exact absurd hd (by simp [hl])
          · exact hl
        simp [he, hd, hq, ih hls]
      · simp only [Bool.not_eq_true] at hd
        simp [he, hd, ih hls]

theorem negotiate_session_id_hit (l : List Char) (rest : List (List Char))
    (h : negLineQualifies l = true) :
    ∃ sid, pySplitIdx1 qSidSub (pyStrip (l.drop 6)) = some sid ∧
      negotiate_session_id (l :: rest) = some sid := by
  simp only [negLineQualifies, Bool.and_eq_true, decide_eq_true_eq] at h
  obtain ⟨⟨hne, hd⟩, hq⟩ := h
  have hs := pySplitIdx1_isSome qSidSub (pyStrip (l.drop 6)) hq
  cases hsp : pySplitIdx1 qSidSub (pyStrip (l.drop 6)) with
  | none => rw [hsp] at hs; simp at hs
  | some sid =>
    refine ⟨sid, rfl, ?_⟩
    simp [negotiate_session_id, hne, hd, hq, hsp]

/-- What a successful poll GET with a 200 answer returns (lines 170-178):
the decoded JSON body, or the raw body text when decoding fails. -/
def pollRetOf (body : List Char) : PollRet :=
  match json_loads body with
  | some j => .jsonRet j
  | none => .textRet body

theorem poll_first_200 (n k : Nat) (oracle : List PollResp) (body : List Char)
    (hk : k < n)
    (hpre : ∀ j r, j < k → oracle.get? j = some r → isOk200 r = false)
    (hit : oracle.get? k = some (.ok 200 body)) :
    poll_response_endpoint n oracle =
      (.success (pollRetOf body), oracle.drop (k + 1)) := by
  induction n generalizing k oracle with
  | zero => omega
  | succ m ih =>
    cases oracle with
    | nil => simp at hit
    | cons r rest =>
      cases k with
      | zero =>
        simp only [List.get?] at hit
        injection hit with hit
        subst hit
        simp only [poll_response_endpoint, pollRetOf, if_pos rfl]
        cases json_loads body <;> simp
      | succ k' =>
        have hr0 : isOk200 r = false :=
          hpre 0 r (Nat.succ_pos k') rfl
        have hit' : rest.get? k' = some (.ok 200 body) := hit
        have hpre' : ∀ j s, j < k' → rest.get? j = some s → isOk200 s = false :=
          fun j s hj hg => hpre (j + 1) s (Nat.succ_lt_succ hj) hg
        have hk' : k' < m := Nat.lt_of_succ_lt_succ hk
        have hrec := ih k' rest hk' hpre' hit'
        cases r with
        | ok s b =>
          have hs : ¬ s = 200 := by
            intro hcon; subst hcon; simp [isOk200] at hr0
          simp only [poll_response_endpoint, if_neg hs]
          rw [hrec]
          rfl
        | exn m' =>
          simp only [poll_response_endpoint]
          rw [hrec]
          rfl

theorem poll_no_200 (n : Nat) (oracle : List PollResp)
    (h : ∀ j r, j < n → oracle.get? j = some r → isOk200 r = false) :
    (poll_response_endpoint n oracle).1 = .timeout := by
  induction n generalizing oracle with
  | zero => rfl
  | succ m ih =>
    cases oracle with
    | nil =>
      simp only [poll_response_endpoint]
      exact ih [] (fun j r hj hg => by simp at hg)
    | cons r rest =>
      have hr0 : isOk200 r = false := h 0 r (Nat.succ_pos m) rfl
      have h' : ∀ j s, j < m → rest.get? j = some s → isOk200 s = false :=
        fun j s hj hg => h (j + 1) s (Nat.succ_lt_succ hj) hg
      cases r with
      | ok s b =>
        have hs : ¬ s = 200 := by
          intro hcon; subst hcon; simp [isOk200] at hr0
        simp only [poll_response_endpoint, if_neg hs]
        exact ih rest h'
      | exn m' =>
        simp only [poll_response_endpoint]
        exact ih rest h'

/-- C1 (counterexample): the negotiation step does not return the
`data:` fragment resolved against the base URL.  For the well-formed
negotiation response `data: /other/?session_id=abc` the code returns the
fixed messages URL `http://h/mcp/t-0/messages/?session_id=abc`, while
the fragment resolved against the base is
`http://h/other/?session_id=abc`; and a `data:` line whose fragment
carries no `?session_id=` query is not used at all (negotiation fails). -/
theorem c1_negotiation_counterexample :
    negotiate (lc "http://h") (lc "0") [lc "data: /other/?session_id=abc"] =
      some (lc "http://h/mcp/t-0/messages/?session_id=abc") ∧
    specNegotiate (lc "http://h") [lc "data: /other/?session_id=abc"] =
      some (lc "http://h/other/?session_id=abc") ∧
    lc "http://h/mcp/t-0/messages/?session_id=abc" ≠
      lc "http://h/other/?session_id=abc" ∧
    negotiate (lc "http://h") (lc "0") [lc "data: bare-session-token"] = none :=
  ⟨rfl, rfl, by decide, rfl⟩

/-- C1 (amended): negotiation scans the SSE lines for the first nonempty
`data: ` line whose stripped fragment contains `?session_id=`, extracts
the id after that marker, and returns the fixed
`{base}/mcp/t-{token}/messages/?session_id={id}` URL; earlier
non-qualifying lines are skipped. -/
theorem c1_negotiation_amended : ∀ (baseUrl token : List Char)
    (pre : List (List Char)) (l : List Char) (post : List (List Char)),
    (∀ x ∈ pre, negLineQualifies x = false) →
    negLineQualifies l = true →
    ∃ sid, pySplitIdx1 qSidSub (pyStrip (l.drop 6)) = some sid ∧
      negotiate baseUrl token (pre ++ l :: post) =
        some (messages_url baseUrl token ++ lc "?session_id=" ++ sid) := by
  intro baseUrl token pre l post hpre hl
  obtain ⟨sid, hsp, hneg⟩ := negotiate_session_id_hit l post hl
  refine ⟨sid, hsp, ?_⟩
  unfold negotiate
  rw [negotiate_session_id_skip pre (l :: post) hpre, hneg]
  rfl

/-- Closed instance of `c1_negotiation_amended`. -/
theorem c1_negotiation_amended_witness :
    ∃ sid, pySplitIdx1 qSidSub (pyStrip ((lc "data: /other/?session_id=abc").drop 6)) =
        some sid ∧
      negotiate (lc "http://h") (lc "0")
          ([lc ": keepalive"] ++ (lc "data: /other/?session_id=abc") :: []) =
        some (messages_url (lc "http://h") (lc "0") ++ lc "?session_id=" ++ sid) :=
  c1_negotiation_amended (lc "http://h") (lc "0") [lc ": keepalive"]
    (lc "data: /other/?session_id=abc") []
    (by
      intro x hx
      simp only [List.mem_singleton] at hx
      subst hx
      rfl)
    (by decide)

/-- C2 (counterexample): a dispatch POST answered 200 with a decodable
body carrying a final-looking response does not deliver that body as an
AgentResponse: `raise_for_status` is a no-op on 200 and `send_message`
falls through, returning without a response (the body is only printed as
debug text) — even though the body would have satisfied
`_is_final_response`. -/
theorem c2_dispatch_counterexample :
    send_message [lc "data: /x?session_id=a"] 200
        (lc "\x7b\"status\": \"success\", \"response\": \"hi\"\x7d")
        [lc "event: end"] [] =
      .noStream (lc "\x7b\"status\": \"success\", \"response\": \"hi\"\x7d") ∧
    (json_loads (lc "\x7b\"status\": \"success\", \"response\": \"hi\"\x7d")).map
        is_final_response = some true :=
  ⟨rfl, rfl⟩

/-- C2 (amended): after a successful negotiation, a dispatch status of
202 hands the stream to `_listen_for_response` and returns its result; a
4xx/5xx status fails the turn with a dispatch error and no stream is
consumed (the outcome is the same for any stream contents); any other
status (200 included) also consumes no stream — the function returns
without error and without an AgentResponse. -/
theorem c2_dispatch_amended : ∀ (neg : List (List Char)) (s : Nat)
    (b : List Char) (lines lines2 : List (List Char))
    (oracle oracle2 : List PollResp),
    (negotiate_session_id neg).isSome = true →
    (s = 202 →
      send_message neg s b lines oracle =
        .listened (listen_for_response ⟨oracle, []⟩ lines).1
          (listen_for_response ⟨oracle, []⟩ lines).2) ∧
    (400 ≤ s → s < 600 →
      send_message neg s b lines oracle = .dispatchError s b ∧
      send_message neg s b lines2 oracle2 = .dispatchError s b) ∧
    (s ≠ 202 →
      send_message neg s b lines oracle = send_message neg s b lines2 oracle2) := by
  intro neg s b lines lines2 oracle oracle2 hneg
  cases hn : negotiate_session_id neg with
  | none => rw [hn] at hneg; simp at hneg
  | some sid =>
    refine ⟨?_, ?_, ?_⟩
    · intro h202
      subst h202
      simp [send_message, hn]
    · intro h4 h6
      have hne : ¬ s = 202 := by omega
      have h45 : 400 ≤ s ∧ s < 600 := ⟨h4, h6⟩
      constructor <;> simp [send_message, hn, hne, h45]
    · intro hne
      by_cases h45 : 400 ≤ s ∧ s < 600
      · simp [send_message, hn, hne, h45]
      · simp [send_message, hn, hne, h45]

/-- Closed instance of `c2_dispatch_amended` at statuses 202, 400, 200. -/
theorem c2_dispatch_amended_witness :
    (send_message [lc "data: /x?session_id=a"] 202 (lc "") [lc "event: end"] [] =
      .listened (listen_for_response ⟨[], []⟩ [lc "event: end"]).1
        (listen_for_response ⟨[], []⟩ [lc "event: end"]).2) ∧
    (send_message [lc "data: /x?session_id=a"] 400 (lc "bad") [lc "event: end"] [] =
        .dispatchError 400 (lc "bad") ∧
      send_message [lc "data: /x?session_id=a"] 400 (lc "bad") [] [] =
        .dispatchError 400 (lc "bad")) ∧
    (send_message [lc "data: /x?session_id=a"] 200 (lc "inline") [lc "event: end"] [] =
      send_message [lc "data: /x?session_id=a"] 200 (lc "inline") [] []) :=
  ⟨(c2_dispatch_amended [lc "data: /x?session_id=a"] 202 (lc "")
      [lc "event: end"] [] [] [] (by decide)).1 rfl,
   (c2_dispatch_amended [lc "data: /x?session_id=a"] 400 (lc "bad")
      [lc "event: end"] [] [] [] (by decide)).2.1 (by decide) (by decide),
   (c2_dispatch_amended [lc "data: /x?session_id=a"] 200 (lc "inline")
      [lc "event: end"] [] [] [] (by decide)).2.2 (by decide)⟩

/-- C3 (counterexample): the reader does not keep the most recent
final-looking frame until a terminal condition; it returns at the FIRST
frame `_is_final_response` accepts.  On a stream carrying two
final-looking frames (`"first"`, then `"second"`) followed by
`event: end`, the result is the first frame, not the later one. -/
theorem c3_supersede_counterexample :
    (listen_for_response ⟨[], []⟩
        [lc "data: \x7b\"status\": \"success\", \"response\": \"first\"\x7d",
         lc "data: \x7b\"status\": \"success\", \"response\": \"second\"\x7d",
         lc "event: end"]).1 =
      .finalResponse (Json.obj [(lc "status", Json.str (lc "success")),
        (lc "response", Json.str (lc "first"))]) ∧
    Json.obj [(lc "status", Json.str (lc "success")),
        (lc "response", Json.str (lc "first"))] ≠
      Json.obj [(lc "status", Json.str (lc "success")),
        (lc "response", Json.str (lc "second"))] := by
  refine ⟨rfl, ?_⟩
  intro h
  have h2 := congrArg (fun j =>
    match j with
    | Json.obj kvs => (dictGet? kvs (lc "response")).getD Json.null
    | _ => Json.null) h
  have h3 : Json.str (lc "first") = Json.str (lc "second") := h2
  injection h3 with h4
  exact absurd h4 (by decide)

/-- C3 (amended): the reader returns immediately upon the first data
frame that decodes to a mapping accepted by `_is_final_response`,
whatever comes after it on the stream; earlier frames are printed as
they arrive but not retained as a working result. -/
theorem c3_first_final_frame_amended : ∀ (st st2 : ListenState)
    (pre : List (List Char)) (rawLine : List Char) (post : List (List Char))
    (data : List Char) (j : Json),
    listen_run st pre = .next st2 →
    pyStrip rawLine = dataPfxS ++ data → pyStrip data = data →
    data ≠ [] → data ≠ doneSentinel →
    (startsWithS mcpPfxS data && containsSub sidSub data) = false →
    json_loads data = some j → is_final_response j = true →
    listen_for_response st (pre ++ rawLine :: post) =
      (.finalResponse j, { st2 with log := st2.log ++ [.jsonResp j] }) := by
  intro st st2 pre rawLine post data j hpre h1 h2 hne1 hne2 hrot hj hfin
  have hstep : listen_step st2 rawLine =
      .stop (.finalResponse j) { st2 with log := st2.log ++ [.jsonResp j] } := by
    rw [listen_step_data st2 rawLine data h1 h2]
    simp [hne1, hne2, hrot, hj, hfin]
  have hrun : listen_run st (pre ++ rawLine :: post) =
      .stop (.finalResponse j) { st2 with log := st2.log ++ [.jsonResp j] } := by
    rw [listen_run_append, hpre]
    simp [listen_run, hstep]
  simp [listen_for_response, hrun]

/-- Closed instance of `c3_first_final_frame_amended`: the final frame is
returned with the rest of the stream (a second frame and the terminal
event) unread. -/
theorem c3_first_final_frame_amended_witness :
    listen_for_response ⟨[], []⟩
        [lc "data: \x7b\"status\": \"success\", \"response\": \"first\"\x7d",
         lc "data: \x7b\"status\": \"success\", \"response\": \"second\"\x7d",
         lc "event: end"] =
      (.finalResponse (Json.obj [(lc "status", Json.str (lc "success")),
          (lc "response", Json.str (lc "first"))]),
        ⟨[], [.jsonResp (Json.obj [(lc "status", Json.str (lc "success")),
          (lc "response", Json.str (lc "first"))])]⟩) :=
  c3_first_final_frame_amended ⟨[], []⟩ ⟨[], []⟩ []
    (lc "data: \x7b\"status\": \"success\", \"response\": \"first\"\x7d")
    [lc "data: \x7b\"status\": \"success\", \"response\": \"second\"\x7d",
     lc "event: end"]
    (lc "\x7b\"status\": \"success\", \"response\": \"first\"\x7d")
    (Json.obj [(lc "status", Json.str (lc "success")),
      (lc "response", Json.str (lc "first"))])
    rfl rfl rfl (by decide) (by decide) rfl rfl rfl

theorem timed_listen_no_idleBreak (cs : List TChunk) : ∀ (st : ListenState)
    (lastArr lastAct : Nat) (buf : List Char) (tail : StreamTail),
    (∀ c ∈ cs, c.data ≠ []) →
    ∀ st', timed_listen st lastArr lastAct buf cs tail ≠ .idleBreak st' := by
  induction cs with
  | nil =>
    intro st a b buf tail h st'
    cases tail with
    | silent => simp [timed_listen]
    | closed t =>
      simp only [timed_listen]
      split <;> simp
  | cons c cs ih =>
    intro st a b buf tail h st'
    have hc : c.data ≠ [] := h c (List.mem_cons_self _ _)
    have h' : ∀ x ∈ cs, x.data ≠ [] := fun x hx => h x (List.mem_cons_of_mem _ hx)
    simp only [timed_listen]
    by_cases h300 : a + 300 < c.t
    · simp [h300]
    · rw [if_neg h300, if_neg hc]
      cases hr : listen_run st (extractL '\n' (buf ++ c.data)).1 with
      | stop r st3 => simp [hr]
      | next st3 =>
        have hz : ¬ (c.t - c.t > 120) := by omega
        simp only [hr, hz, if_false]
        exact ih st3 c.t c.t _ tail h' st'

/-- C5: an endpoint-rotation data frame (shaped `/mcp/t-…` with a
`session_id=` query) hands off to the fallback poll loop: a successful
poll returns immediately as the reader's result, a poll timeout is a
soft outcome (a timeout notice, no partial data) after which the reader
keeps listening to the rest of the stream; and the poll loop itself
returns at the first 200 answer (decoded body, or raw text when the
body does not decode), retrying 202, other statuses and raised
exceptions, timing out when no 200 arrives within `max_polls`
attempts. -/
theorem c5_rotation_poll : ∀ (st st2 : ListenState) (pre : List (List Char))
    (rawLine data : List Char) (post : List (List Char)),
    listen_run st pre = .next st2 →
    pyStrip rawLine = dataPfxS ++ data → pyStrip data = data →
    data ≠ [] → data ≠ doneSentinel →
    startsWithS mcpPfxS data = true → containsSub sidSub data = true →
    ((∀ r rest, poll_response_endpoint max_polls st2.oracle = (.success r, rest) →
        listen_for_response st (pre ++ rawLine :: post) =
          (.pollSuccess r, ⟨rest, st2.log ++ [pollRetLog r]⟩)) ∧
     (∀ rest, poll_response_endpoint max_polls st2.oracle = (.timeout, rest) →
        listen_for_response st (pre ++ rawLine :: post) =
          listen_for_response ⟨rest, st2.log ++ [.pollTimeoutNote]⟩ post) ∧
     (∀ (oracle : List PollResp) (k : Nat) (body : List Char),
        k < max_polls →
        (∀ j r, j < k → oracle.get? j = some r → isOk200 r = false) →
        oracle.get? k = some (.ok 200 body) →
        poll_response_endpoint max_polls oracle =
          (.success (pollRetOf body), oracle.drop (k + 1))) ∧
     (∀ oracle : List PollResp,
        (∀ j r, j < max_polls → oracle.get? j = some r → isOk200 r = false) →
        (poll_response_endpoint max_polls oracle).1 = .timeout)) := by
  intro st st2 pre rawLine data post hpre h1 h2 hne1 hne2 hrot1 hrot2
  refine ⟨?_, ?_, ?_, ?_⟩
  · intro r rest hpoll
    have hstep : listen_step st2 rawLine =
        .stop (.pollSuccess r) ⟨rest, st2.log ++ [pollRetLog r]⟩ := by
      rw [listen_step_data st2 rawLine data h1 h2]
      simp [hne1, hne2, hrot1, hrot2, hpoll]
    have hrun : listen_run st (pre ++ rawLine :: post) =
        .stop (.pollSuccess r) ⟨rest, st2.log ++ [pollRetLog r]⟩ := by
      rw [listen_run_append, hpre]
      simp [listen_run, hstep]
    simp [listen_for_response, hrun]
  · intro rest hpoll
    have hstep : listen_step st2 rawLine =
        .next ⟨rest, st2.log ++ [.pollTimeoutNote]⟩ := by
      rw [listen_step_data st2 rawLine data h1 h2]
      simp [hne1, hne2, hrot1, hrot2, hpoll]
    have hrun : listen_run st (pre ++ rawLine :: post) =
        listen_run ⟨rest, st2.log ++ [.pollTimeoutNote]⟩ post := by
      rw [listen_run_append, hpre]
      simp [listen_run, hstep]
    simp [listen_for_response, hrun]
  · intro oracle k body hk hmiss hhit
    exact poll_first_200 max_polls k oracle body hk hmiss hhit
  · intro oracle hmiss
    exact poll_no_200 max_polls oracle hmiss

/-- Closed instance of `c5_rotation_poll`: a rotation frame whose poll
oracle answers 202 then 200 with a decodable body yields the decoded
body as the reader's result; and a poll loop whose GETs all raise times
out. -/
theorem c5_rotation_poll_witness :
    listen_for_response
        ⟨[PollResp.ok 202 [], PollResp.ok 200 (lc "\x7b\"response\": \"done\"\x7d")], []⟩
        [lc "data: /mcp/t-0/sse?session_id=xyz"] =
      (.pollSuccess (.jsonRet (Json.obj [(lc "response", Json.str (lc "done"))])),
        ⟨[], [.jsonResp (Json.obj [(lc "response", Json.str (lc "done"))])]⟩) ∧
    poll_response_endpoint max_polls
        [PollResp.ok 202 [], PollResp.ok 200 (lc "\x7b\"response\": \"done\"\x7d")] =
      (.success (pollRetOf (lc "\x7b\"response\": \"done\"\x7d")), []) ∧
    (poll_response_endpoint max_polls []).1 = .timeout := by
  have h := c5_rotation_poll
    ⟨[PollResp.ok 202 [], PollResp.ok 200 (lc "\x7b\"response\": \"done\"\x7d")], []⟩
    ⟨[PollResp.ok 202 [], PollResp.ok 200 (lc "\x7b\"response\": \"done\"\x7d")], []⟩
    [] (lc "data: /mcp/t-0/sse?session_id=xyz")
    (lc "/mcp/t-0/sse?session_id=xyz") []
    rfl rfl rfl (by decide) (by decide) rfl rfl
  refine ⟨?_, ?_, ?_⟩
  · exact h.1 (.jsonRet (Json.obj [(lc "response", Json.str (lc "done"))])) [] rfl
  · exact h.2.2.1
      [PollResp.ok 202 [], PollResp.ok 200 (lc "\x7b\"response\": \"done\"\x7d")]
      1 (lc "\x7b\"response\": \"done\"\x7d") (by decide)
      (by
        intro j r hj hg
        have hj0 : j = 0 := Nat.lt_one_iff.mp hj
        subst hj0
        simp only [List.get?] at hg
        cases hg
        rfl)
      rfl
  · exact h.2.2.2 [] (by intro j r hj hg; simp at hg)

/-- C6: a named event line of type `end`, `done` or `complete` always
terminates the reader at the point it is processed — regardless of what
follows on the stream and even when no data frame was ever decoded —
returning the no-response outcome rather than hanging. -/
theorem c6_terminal_event : ∀ (st st2 : ListenState) (pre : List (List Char))
    (rawLine et : List Char) (post : List (List Char)),
    listen_run st pre = .next st2 →
    pyStrip rawLine = eventPfxS ++ et → pyStrip et = et →
    (et = lc "end" ∨ et = lc "done" ∨ et = lc "complete") →
    listen_for_response st (pre ++ rawLine :: post) = (.streamEnded, st2) := by
  intro st st2 pre rawLine et post hpre h1 h2 hdj
  have hstep : listen_step st2 rawLine = .stop .streamEnded st2 := by
    rw [listen_step_event st2 rawLine et h1 h2]
    rcases hdj with h | h | h <;> simp [h]
  have hrun : listen_run st (pre ++ rawLine :: post) = .stop .streamEnded st2 := by
    rw [listen_run_append, hpre]
    simp [listen_run, hstep]
  simp [listen_for_response, hrun]

/-- Closed instance of `c6_terminal_event`: a stream with only a comment
line and `event: end` terminates with the empty outcome, leaving a later
data line unread. -/
theorem c6_terminal_event_witness :
    listen_for_response ⟨[], []⟩
        [lc ": ping", lc "event: end",
         lc "data: \x7b\"status\": \"success\"\x7d"] =
      (.streamEnded, ⟨[], []⟩) :=
  c6_terminal_event ⟨[], []⟩ ⟨[], []⟩ [lc ": ping"] (lc "event: end")
    (lc "end") [lc "data: \x7b\"status\": \"success\"\x7d"]
    rfl rfl rfl (Or.inl rfl)

/-- C7 (counterexample): not every undecodable data payload is surfaced:
the `[DONE]` sentinel fails to parse as JSON yet is silently discarded
(the reader's state, including its output log, is unchanged). -/
theorem c7_text_fragment_counterexample :
    json_loads doneSentinel = none ∧
    listen_step ⟨[], []⟩ (lc "data: [DONE]") = .next ⟨[], []⟩ :=
  ⟨rfl, rfl⟩

/-- C7 (amended): a nonempty data payload that fails to parse as JSON is
printed as a plain-text fragment — unless it is the `[DONE]` sentinel
(silently dropped) or an endpoint-rotation announcement (handed to the
poller instead). -/
theorem c7_text_fragment_amended : ∀ (st : ListenState) (rawLine data : List Char),
    pyStrip rawLine = dataPfxS ++ data → pyStrip data = data →
    data ≠ [] → data ≠ doneSentinel →
    (startsWithS mcpPfxS data && containsSub sidSub data) = false →
    json_loads data = none →
    listen_step st rawLine = .next { st with log := st.log ++ [.textResp data] } := by
  intro st rawLine data h1 h2 hne1 hne2 hrot hj
  rw [listen_step_data st rawLine data h1 h2]
  simp [hne1, hne2, hrot, hj]

/-- Closed instance of `c7_text_fragment_amended`. -/
theorem c7_text_fragment_amended_witness :
    listen_step ⟨[], []⟩ (lc "data: hello world") =
      .next ⟨[], [.textResp (lc "hello world")]⟩ :=
  c7_text_fragment_amended ⟨[], []⟩ (lc "data: hello world")
    (lc "hello world") rfl rfl (by decide) (by decide) rfl rfl

/-- C10: the reader frames only newline-terminated fragments: the framed
lines each correspond to a newline-terminated segment of the input
(re-appending `\n` to each framed line and the residual buffer
reconstructs the byte sequence exactly), and the residual buffer — the
text after the last newline, which is never framed, parsed or appended
when the stream ends — contains no newline. -/
theorem c10_unterminated_residue : ∀ (cs : List (List Char)),
    ((feedChunks '\n' [] cs).1.map (fun l => l ++ ['\n'])).flatten ++
        (feedChunks '\n' [] cs).2 = cs.flatten ∧
    '\n' ∉ (feedChunks '\n' [] cs).2 := by
  intro cs
  rw [feedChunks_join]
  exact ⟨extractL_reconstruct _ _, extractL_residual_no_nl _ _⟩

/-- C4: chunk-boundary invariance fails in `_process_response_stream`:
the identical byte sequence `data: \xc3\xa9\n` fed as one chunk yields
one framed line, but split so that the two-byte UTF-8 character
straddles the boundary, both chunks raise `UnicodeDecodeError` and are
skipped whole (the `continue` at line 285), yielding no framed line at
all. -/
theorem c4_chunk_boundary_bug :
    ([[100, 97, 116, 97, 58, 32, 195], [169, 10]] : List (List Nat)).flatten =
      ([[100, 97, 116, 97, 58, 32, 195, 169, 10]] : List (List Nat)).flatten ∧
    process_response_stream [[100, 97, 116, 97, 58, 32, 195, 169, 10]] =
      ([[100, 97, 116, 97, 58, 32, 233]], []) ∧
    process_response_stream [[100, 97, 116, 97, 58, 32, 195], [169, 10]] =
      ([], []) ∧
    process_response_stream [[100, 97, 116, 97, 58, 32, 195], [169, 10]] ≠
      process_response_stream [[100, 97, 116, 97, 58, 32, 195, 169, 10]] := by
  refine ⟨rfl, rfl, rfl, ?_⟩
  decide

/-- C8: the 120-unit inactivity check of `_listen_for_response` can
never terminate a stream that keeps delivering nonempty chunks, however
long the gaps between them (the check runs only after a chunk arrives,
against the just-reset `last_activity`); a completely silent stream
terminates only through the 300-unit transport read timeout (caught as
a soft return), not within the 60-120-unit idle window; and a 290-unit
gap between chunks flows straight through the reader. -/
theorem c8_idle_window_dead :
    (∀ (st : ListenState) (lastArr lastAct : Nat) (buf : List Char)
        (cs : List TChunk) (tail : StreamTail),
      (∀ c ∈ cs, c.data ≠ []) →
      ∀ st', timed_listen st lastArr lastAct buf cs tail ≠ .idleBreak st') ∧
    timed_listen ⟨[], []⟩ 0 0 [] [] .silent = .readTimeout ⟨[], []⟩ ∧
    timed_listen ⟨[], []⟩ 0 0 []
        [⟨0, lc "ignored\n"⟩, ⟨290, lc "data: hi\n"⟩] (.closed 295) =
      .streamClosed ⟨[], [.textResp (lc "hi")]⟩ :=
  ⟨fun st a b buf cs tail h st' => timed_listen_no_idleBreak cs st a b buf tail h st',
   rfl, rfl⟩

/-- Closed instance of the first part of `c8_idle_window_dead`. -/
theorem c8_idle_window_dead_witness :
    timed_listen ⟨[], []⟩ 0 0 [] [⟨0, lc "x"⟩, ⟨290, lc "y"⟩] .silent ≠
      .idleBreak ⟨[], []⟩ :=
  c8_idle_window_dead.1 ⟨[], []⟩ 0 0 [] [⟨0, lc "x"⟩, ⟨290, lc "y"⟩] .silent
    (by
      intro c hc
      simp only [List.mem_cons, List.not_mem_nil, or_false] at hc
      rcases hc with hc | hc <;> subst hc <;> decide)
    ⟨[], []⟩

/-- C9: the `finish_chat` teardown is best-effort: for every chat id and
every behavior of the call — on a first or a repeated invocation — the
outcome is either a normal end or a warning carrying the raised error;
a failure is never propagated (there is no fatal outcome), so a second
`endSession` on the same id cannot throw either. -/
theorem c9_finish_chat_soft : ∀ (cid : List Char)
    (c1 c2 : List Char → Except (List Char) Unit),
    (finish_chat_teardown (some cid) c1 = .ended ∨
      ∃ e, c1 cid = .error e ∧ finish_chat_teardown (some cid) c1 = .warned e) ∧
    (finish_chat_teardown (some cid) c2 = .ended ∨
      ∃ e, c2 cid = .error e ∧ finish_chat_teardown (some cid) c2 = .warned e) := by
  intro cid c1 c2
  constructor
  · cases h : c1 cid with
    | ok u => left; simp [finish_chat_teardown, h]
    | error e => right; exact ⟨e, rfl, by simp [finish_chat_teardown, h]⟩
  · cases h : c2 cid with
    | ok u => left; simp [finish_chat_teardown, h]
    | error e => right; exact ⟨e, rfl, by simp [finish_chat_teardown, h]⟩

end AgentZeroCli
